import Mathlib

/-!
Verification of the point-cloud geometric-feature kernel (`pgeof.cpp`).

The kernel has two functions:
* `neighborhood_pca` — gathers a neighborhood, builds its covariance matrix,
  calls Eigen's `EigenSolver`, then sorts the eigenpairs by eigenvalue
  descending, clamps eigenvalues to `max(0, ·)`, sign-normalizes each
  eigenvector so its Z component is nonnegative, and computes the
  eigenentropy with stabilizer `ε = 0.001`.
* `compute_geometric_features` — per point: reads `k_nn` from the CSR
  offsets, zero-fills the 11-slot output when `k_nn < k_min or k_nn <= 0`
  (an unsigned comparison: `k_nn` is `size_t`, `k_min` is `int`), otherwise
  runs the adaptive neighborhood search (`k_step >= 1`) or a single PCA at
  `k_nn`, derives the 11 features, and writes them at offsets
  `11*i .. 11*i+10`.

The embedding below is shallow: machine unsigned arithmetic is modelled by
`Int`/`Nat` with explicit reduction modulo `2^64` where the C++ code
converts a signed `int` to `size_t`; float arithmetic is modelled by exact
real arithmetic; the external Eigen eigensolver is a parameter (its raw
eigenvalues and eigenvectors are arguments of the model of
`neighborhood_pca`), and the rest of the kernel is translated line by line.
-/

/-- The C++ conversion of a signed `int` value to `size_t` (64-bit
unsigned): reduction modulo `2^64`, as in `k_nn < k_min` where `k_nn` is
`size_t` and `k_min` is `int`, and in `std::size_t k0 = std::min(...)`. -/
def size_t_of_int (m : ℤ) : ℕ := (m % (2 : ℤ) ^ 64).toNat

/-- `std::size_t k0 = std::min(std::max(k_min, k_min_search), int(k_nn))`
computed in signed `int` arithmetic (before the conversion to `size_t`). -/
def k0_of (k_min k_min_search : ℤ) (k_nn : ℕ) : ℤ :=
  min (max k_min k_min_search) (k_nn : ℤ)

/-- The loop `for (k = k0; k < k_nn + 1; k++)` together with the skip
condition `if ((k > k0) && (k % k_step != 0) && (k != k_nn)) continue;`:
the list of neighborhood sizes `k` at which `neighborhood_pca` is invoked
by the adaptive search, in increasing order. -/
def loopKs (k0 k_step k_nn : ℕ) : List ℕ :=
  (List.range' k0 (k_nn + 1 - k0)).filter
    (fun k => !(decide (k0 < k) && decide (k % k_step ≠ 0) && decide (k ≠ k_nn)))

/-- Modelled from the spec: the candidate set the spec describes for the
adaptive search, namely the arithmetic progression `k0, k0 + k_step,
k0 + 2*k_step, …` truncated at `k_nn`, together with `k_nn` itself
unconditionally.  Stated as a decidable predicate for comparison with the
candidate list `loopKs` actually produced by the code. -/
def specCandidate (k0 k_step k_nn k : ℕ) : Prop :=
  (k0 ≤ k ∧ k ≤ k_nn ∧ (k - k0) % k_step = 0) ∨ k = k_nn

instance (k0 k_step k_nn k : ℕ) : Decidable (specCandidate k0 k_step k_nn k) := by
  unfold specCandidate; infer_instance

/-- The guard `if (k_nn < k_min or k_nn <= 0)` of
`compute_geometric_features`, with the C++ unsigned-comparison semantics:
`k_min` is converted to `size_t`, and `k_nn <= 0` means `k_nn == 0`. -/
def degenerate_guard (k_min : ℤ) (k_nn : ℕ) : Prop :=
  k_nn < size_t_of_int k_min ∨ k_nn = 0

instance (k_min : ℤ) (k_nn : ℕ) : Decidable (degenerate_guard k_min k_nn) := by
  unfold degenerate_guard; infer_instance

/-- The list of neighborhood sizes at which `neighborhood_pca` is evaluated
for one point of `compute_geometric_features`: none when the degenerate
guard fires, only `k_nn` when the adaptive search is disabled
(`k_step < 1`), and the loop candidates otherwise. -/
def evaluatedKs (k_min k_step k_min_search : ℤ) (k_nn : ℕ) : List ℕ :=
  if degenerate_guard k_min k_nn then []
  else if k_step < 1 then [k_nn]
  else loopKs (size_t_of_int (k0_of k_min k_min_search k_nn)) (size_t_of_int k_step) k_nn

theorem size_t_of_int_ofNat (m : ℤ) (h0 : 0 ≤ m) (h1 : m < 2 ^ 64) :
    size_t_of_int m = m.toNat := by
  unfold size_t_of_int
  rw [Int.emod_eq_of_lt h0 h1]

theorem mem_loopKs {k0 k_step k_nn k : ℕ} :
    k ∈ loopKs k0 k_step k_nn ↔
      (k0 ≤ k ∧ k < k_nn + 1) ∧ ¬(k0 < k ∧ k % k_step ≠ 0 ∧ k ≠ k_nn) := by
  unfold loopKs
  rw [List.mem_filter, List.mem_range'_1]
  constructor
  · rintro ⟨⟨h1, h2⟩, h3⟩
    refine ⟨⟨h1, by omega⟩, ?_⟩
    simp only [Bool.and_eq_true, Bool.not_eq_true', Bool.and_eq_false_iff,
      decide_eq_false_iff_not, not_not] at h3
    rintro ⟨hk0, hmod, hknn⟩
    rcases h3 with h | h
    · rcases h with h | h
      · exact h hk0
      · exact hmod h
    · exact hknn h
  · rintro ⟨⟨h1, h2⟩, h3⟩
    refine ⟨⟨h1, by omega⟩, ?_⟩
    simp only [Bool.and_eq_true, Bool.not_eq_true', Bool.and_eq_false_iff,
      decide_eq_false_iff_not, not_not]
    by_cases hk0 : k0 < k
    · by_cases hmod : k % k_step = 0
      · exact Or.inl (Or.inr hmod)
      · right
        by_contra hknn
        exact h3 ⟨hk0, hmod, hknn⟩
    · exact Or.inl (Or.inl hk0)

/-- One iteration of the incumbent update in the adaptive search:
`if ((k == k0) || (pca_k.eigenentropy < pca.eigenentropy)) { pca = pca_k;
k_optimal = k; }`.  The state is `none` while `pca`/`k_optimal` are still
uninitialized (before the first iteration, which always has `k = k0`);
`ent k` is the eigenentropy of the PCA at neighborhood size `k`. -/
noncomputable def selStep (ent : ℕ → ℝ) (k0 : ℕ) (acc : Option ℕ) (k : ℕ) : Option ℕ :=
  match acc with
  | none => if k = k0 then some k else none
  | some j => if k = k0 ∨ ent k < ent j then some k else some j

/-- The adaptive search over the loop candidates: the retained optimal
neighborhood size `k_optimal` (or `none` when the loop body never runs). -/
noncomputable def searchK (ent : ℕ → ℝ) (k0 k_step k_nn : ℕ) : Option ℕ :=
  (loopKs k0 k_step k_nn).foldl (selStep ent k0) none

theorem loopKs_eq_cons {k0 k_step k_nn : ℕ} (h : k0 ≤ k_nn) :
    ∃ rest, loopKs k0 k_step k_nn = k0 :: rest ∧ ∀ k ∈ rest, k0 < k := by
  unfold loopKs
  have hn : k_nn + 1 - k0 = (k_nn - k0) + 1 := by omega
  rw [hn, List.range'_succ, List.filter_cons]
  have hp : (!(decide (k0 < k0) && decide (k0 % k_step ≠ 0) && decide (k0 ≠ k_nn))) = true := by
    simp
  rw [if_pos hp]
  refine ⟨_, rfl, ?_⟩
  intro k hk
  have := List.mem_range'_1.mp (List.mem_of_mem_filter hk)
  omega

theorem foldl_selStep_some (ent : ℕ → ℝ) (k0 : ℕ) (l : List ℕ) (j : ℕ)
    (hl : ∀ k ∈ l, k0 < k) :
    l.foldl (selStep ent k0) (some j) =
      some (l.foldl (fun j k => if ent k < ent j then k else j) j) := by
  induction l generalizing j with
  | nil => rfl
  | cons k t ih =>
    have hk : k ≠ k0 := by
      have := hl k (List.mem_cons_self k t)
      omega
    have ht : ∀ m ∈ t, k0 < m := fun m hm => hl m (List.mem_cons_of_mem k hm)
    simp only [List.foldl_cons, selStep]
    have : (k = k0 ∨ ent k < ent j) ↔ ent k < ent j :=
      or_iff_right hk
    by_cases hlt : ent k < ent j
    · rw [if_pos (this.mpr hlt), if_pos hlt]
      exact ih k ht
    · rw [if_neg (this.not.mpr hlt), if_neg hlt]
      exact ih j ht

theorem foldl_sel_first (ent : ℕ → ℝ) (l : List ℕ) (j : ℕ) :
    ∃ l₁ l₂, j :: l = l₁ ++ (l.foldl (fun j k => if ent k < ent j then k else j) j) :: l₂ ∧
      (∀ k ∈ l₁, ent (l.foldl (fun j k => if ent k < ent j then k else j) j) < ent k) ∧
      (∀ k ∈ j :: l, ent (l.foldl (fun j k => if ent k < ent j then k else j) j) ≤ ent k) := by
  induction l generalizing j with
  | nil =>
    refine ⟨[], [], rfl, by simp, ?_⟩
    intro k hk
    rw [List.mem_singleton] at hk
    simp [hk]
  | cons k t ih =>
    simp only [List.foldl_cons]
    by_cases hlt : ent k < ent j
    · rw [if_pos hlt]
      obtain ⟨l₁, l₂, hsplit, hfirst, hmin⟩ := ih k
      set r := t.foldl (fun j k => if ent k < ent j then k else j) k with hr
      have hrk : ent r ≤ ent k := hmin k (List.mem_cons_self k t)
      refine ⟨j :: l₁, l₂, by rw [List.cons_append, ← hsplit], ?_, ?_⟩
      · intro m hm
        rcases List.mem_cons.mp hm with rfl | hm
        · exact lt_of_le_of_lt hrk hlt
        · exact hfirst m hm
      · intro m hm
        rcases List.mem_cons.mp hm with rfl | hm
        · exact le_of_lt (lt_of_le_of_lt hrk hlt)
        · rw [hsplit] at hm
          exact hmin m (by rw [hsplit]; exact hm)
    · rw [if_neg hlt]
      have hjk : ent j ≤ ent k := le_of_not_lt hlt
      obtain ⟨l₁, l₂, hsplit, hfirst, hmin⟩ := ih j
      set r := t.foldl (fun j k => if ent k < ent j then k else j) j with hr
      cases l₁ with
      | nil =>
        have hrj : r = j := by
          simp only [List.nil_append] at hsplit
          exact (List.cons_eq_cons.mp hsplit).1.symm
        refine ⟨[], k :: t, by simp [hrj], by simp, ?_⟩
        intro m hm
        rcases List.mem_cons.mp hm with rfl | hm
        · exact hmin m (List.mem_cons_self m t)
        · rcases List.mem_cons.mp hm with rfl | hm
          · rw [hrj]; exact hjk
          · exact hmin m (List.mem_cons_of_mem j hm)
      | cons x l₁' =>
        simp only [List.cons_append] at hsplit
        have hx : x = j := ((List.cons_eq_cons.mp hsplit).1).symm
        have htail : t = l₁' ++ r :: l₂ := (List.cons_eq_cons.mp hsplit).2
        have hrj : ent r < ent j := by
          have := hfirst x (List.mem_cons_self x l₁')
          rw [hx] at this
          exact this
        refine ⟨j :: k :: l₁', l₂, ?_, ?_, ?_⟩
        · simp only [List.cons_append, htail]
        · intro m hm
          rcases List.mem_cons.mp hm with rfl | hm
          · exact hrj
          · rcases List.mem_cons.mp hm with rfl | hm
            · exact lt_of_lt_of_le hrj hjk
            · exact hfirst m (List.mem_cons_of_mem x hm)
        · intro m hm
          rcases List.mem_cons.mp hm with rfl | hm
          · exact hmin m (List.mem_cons_self m t)
          · rcases List.mem_cons.mp hm with rfl | hm
            · exact le_of_lt (lt_of_lt_of_le hrj hjk)
            · exact hmin m (List.mem_cons_of_mem j hm)

/-- The `pcaOutput` struct: sorted clamped eigenvalues `val0 ≥ val1 ≥ val2`,
the three eigenvectors `v0, v1, v2` (as (x, y, z) triples), and the
eigenentropy. -/
structure PCAOutput where
  val0 : ℝ
  val1 : ℝ
  val2 : ℝ
  v0 : ℝ × ℝ × ℝ
  v1 : ℝ × ℝ × ℝ
  v2 : ℝ × ℝ × ℝ
  eigenentropy : ℝ

/-- One compare-exchange of the eigenpair sort: puts the pair with the
larger eigenvalue first, mirroring the comparator
`[&](int i1, int i2) { return ev[i1] > ev[i2]; }`. -/
noncomputable def sortPair (a b : ℝ × (ℝ × ℝ × ℝ)) :
    (ℝ × (ℝ × ℝ × ℝ)) × (ℝ × (ℝ × ℝ × ℝ)) :=
  if b.1 > a.1 then (b, a) else (a, b)

/-- Sorting the three eigenpairs by eigenvalue descending (the effect of
`std::sort` on the index array `indices`). -/
noncomputable def sortPairs (a b c : ℝ × (ℝ × ℝ × ℝ)) :
    (ℝ × (ℝ × ℝ × ℝ)) × (ℝ × (ℝ × ℝ × ℝ)) × (ℝ × (ℝ × ℝ × ℝ)) :=
  let s1 := sortPair a b
  let s2 := sortPair s1.2 c
  let s3 := sortPair s1.1 s2.1
  (s3.1, s3.2, s2.2)

/-- The eigenvector sign normalization: `if (v[2] < 0) { negate v }`, so
every eigenvector is expressed in the Z+ half-space. -/
noncomputable def flipZ (v : ℝ × ℝ × ℝ) : ℝ × ℝ × ℝ :=
  if v.2.2 < 0 then (-v.1, -v.2.1, -v.2.2) else v

/-- The eigenentropy of the clamped eigenvalues, with stabilizer
`epsilon = 0.001`: `val_sum = val0 + val1 + val2 + epsilon`,
`e_i = val_i / val_sum`, `eigenentropy = -Σ e_i * log (e_i + epsilon)`. -/
noncomputable def eigenentropyOf (val0 val1 val2 : ℝ) : ℝ :=
  let epsilon : ℝ := 1 / 1000
  let val_sum := val0 + val1 + val2 + epsilon
  let e0 := val0 / val_sum
  let e1 := val1 / val_sum
  let e2 := val2 / val_sum
  (-e0 * Real.log (e0 + epsilon) - e1 * Real.log (e1 + epsilon)
    - e2 * Real.log (e2 + epsilon))

/-- The post-solver part of `neighborhood_pca`: the raw eigenvalues
`ev0, ev1, ev2` and eigenvectors `w0, w1, w2` are the (real parts of the)
output of the external Eigen `EigenSolver` on the covariance matrix of the
neighborhood; the function sorts the pairs by eigenvalue descending,
clamps each sorted eigenvalue to `max(ev, 0)`, sign-normalizes the
eigenvectors, and computes the eigenentropy of the clamped values. -/
noncomputable def neighborhood_pca (ev0 ev1 ev2 : ℝ) (w0 w1 w2 : ℝ × ℝ × ℝ) :
    PCAOutput :=
  let s := sortPairs (ev0, w0) (ev1, w1) (ev2, w2)
  let val0 := max s.1.1 0
  let val1 := max s.2.1.1 0
  let val2 := max s.2.2.1 0
  { val0 := val0
    val1 := val1
    val2 := val2
    v0 := flipZ s.1.2
    v1 := flipZ s.2.1.2
    v2 := flipZ s.2.2.2
    eigenentropy := eigenentropyOf val0 val1 val2 }

theorem sortPair_fst_ge (a b : ℝ × (ℝ × ℝ × ℝ)) :
    (sortPair a b).1.1 ≥ (sortPair a b).2.1 := by
  unfold sortPair
  split
  · next h => exact le_of_lt h
  · next h => exact le_of_not_lt h

theorem sortPair_snd_le_left (a b : ℝ × (ℝ × ℝ × ℝ)) :
    (sortPair a b).2.1 ≤ a.1 := by
  unfold sortPair
  split
  · next h => exact le_refl _
  · next h => exact le_of_not_lt h

theorem sortPair_snd_eq_min (a b : ℝ × (ℝ × ℝ × ℝ)) :
    (sortPair a b).2.1 = min a.1 b.1 := by
  unfold sortPair
  split
  · next h => exact (min_eq_left (le_of_lt h)).symm
  · next h => exact (min_eq_right (le_of_not_lt h)).symm

theorem sortPairs_sorted (a b c : ℝ × (ℝ × ℝ × ℝ)) :
    (sortPairs a b c).1.1 ≥ (sortPairs a b c).2.1.1 ∧
      (sortPairs a b c).2.1.1 ≥ (sortPairs a b c).2.2.1 := by
  unfold sortPairs
  refine ⟨sortPair_fst_ge _ _, ?_⟩
  show (sortPair (sortPair a b).1 (sortPair (sortPair a b).2 c).1).2.1 ≥
    (sortPair (sortPair a b).2 c).2.1
  rw [sortPair_snd_eq_min]
  refine le_min ?_ ?_
  · calc (sortPair (sortPair a b).2 c).2.1
        ≤ (sortPair a b).2.1 := sortPair_snd_le_left _ _
      _ ≤ (sortPair a b).1.1 := sortPair_fst_ge _ _
  · exact sortPair_fst_ge _ _

/-- A single store `features[idx] = x` into the flat output buffer. -/
def writeAt (f : ℕ → ℝ) (idx : ℕ) (x : ℝ) : ℕ → ℝ :=
  fun j => if j = idx then x else f j

/-- The block of eleven stores `features[i_point * 11 + m] = a_m`
(`m = 0 .. 10`), shared by the degenerate zero-fill branch and the normal
feature-population branch of `compute_geometric_features`. -/
def write11 (f : ℕ → ℝ) (i : ℕ) (a0 a1 a2 a3 a4 a5 a6 a7 a8 a9 a10 : ℝ) : ℕ → ℝ :=
  writeAt (writeAt (writeAt (writeAt (writeAt (writeAt (writeAt (writeAt
    (writeAt (writeAt (writeAt f (i * 11 + 0) a0) (i * 11 + 1) a1)
    (i * 11 + 2) a2) (i * 11 + 3) a3) (i * 11 + 4) a4) (i * 11 + 5) a5)
    (i * 11 + 6) a6) (i * 11 + 7) a7) (i * 11 + 8) a8) (i * 11 + 9) a9)
    (i * 11 + 10) a10

/-- The PCA result retained for one non-degenerate point: the single PCA
at `k_nn` when the search is disabled (`k_step < 1`), and the result at the
neighborhood size retained by the adaptive search otherwise.  `pcaAt k` is
the output of `neighborhood_pca` for this point at neighborhood size `k`
(the composition of neighborhood gathering, covariance computation, the
external eigensolver and the post-processing); the `none` case of the
search is unreachable for well-formed configurations (the loop always runs
its `k = k0` iteration) and is given the `k_nn` result as a junk value. -/
noncomputable def retainedPCA (pcaAt : ℕ → PCAOutput)
    (k_min k_step k_min_search : ℤ) (k_nn : ℕ) : PCAOutput :=
  if k_step < 1 then pcaAt k_nn
  else
    match searchK (fun k => (pcaAt k).eigenentropy)
        (size_t_of_int (k0_of k_min k_min_search k_nn)) (size_t_of_int k_step) k_nn with
    | some k => pcaAt k
    | none => pcaAt k_nn

/-- The body of the per-point loop of `compute_geometric_features` for
point `i`: if the degenerate guard fires, write eleven zeros into the
point's slice; otherwise derive the eleven features from the retained PCA
result and write them.  Returns the updated output buffer. -/
noncomputable def compute_geometric_features_point (features : ℕ → ℝ) (i : ℕ)
    (pcaAt : ℕ → PCAOutput) (k_min k_step k_min_search : ℤ) (k_nn : ℕ) : ℕ → ℝ :=
  if degenerate_guard k_min k_nn then
    write11 features i 0 0 0 0 0 0 0 0 0 0 0
  else
    let pca := retainedPCA pcaAt k_min k_step k_min_search k_nn
    let val0 := Real.sqrt pca.val0
    let val1 := Real.sqrt pca.val1
    let val2 := Real.sqrt pca.val2
    let linearity := (val0 - val1) / (val0 + 1 / 1000)
    let planarity := (val1 - val2) / (val0 + 1 / 1000)
    let scattering := val2 / (val0 + 1 / 1000)
    let length := val0
    let surface := Real.sqrt (val0 * val1 + 1 / 1000000)
    let volume := (val0 * val1 * val2 + 1 / 1000000000) ^ ((1 : ℝ) / 3)
    let curvature := val2 / (val0 + val1 + val2 + 1 / 1000)
    let verticality :=
      if 0 < val0 then
        let u0 := pca.val0 * |pca.v0.1| + pca.val1 * |pca.v1.1| + pca.val2 * |pca.v2.1|
        let u1 := pca.val0 * |pca.v0.2.1| + pca.val1 * |pca.v1.2.1| + pca.val2 * |pca.v2.2.1|
        let u2 := pca.val0 * |pca.v0.2.2| + pca.val1 * |pca.v1.2.2| + pca.val2 * |pca.v2.2.2|
        u2 / Real.sqrt (u0 * u0 + u1 * u1 + u2 * u2)
      else 0
    write11 features i linearity planarity scattering verticality
      pca.v2.1 pca.v2.2.1 pca.v2.2.2 length surface volume curvature

theorem write11_frame (f : ℕ → ℝ) (i : ℕ)
    (a0 a1 a2 a3 a4 a5 a6 a7 a8 a9 a10 : ℝ) (j : ℕ)
    (h : j < i * 11 ∨ i * 11 + 10 < j) :
    write11 f i a0 a1 a2 a3 a4 a5 a6 a7 a8 a9 a10 j = f j := by
  unfold write11 writeAt
  have h0 : j ≠ i * 11 + 0 := by omega
  have h1 : j ≠ i * 11 + 1 := by omega
  have h2 : j ≠ i * 11 + 2 := by omega
  have h3 : j ≠ i * 11 + 3 := by omega
  have h4 : j ≠ i * 11 + 4 := by omega
  have h5 : j ≠ i * 11 + 5 := by omega
  have h6 : j ≠ i * 11 + 6 := by omega
  have h7 : j ≠ i * 11 + 7 := by omega
  have h8 : j ≠ i * 11 + 8 := by omega
  have h9 : j ≠ i * 11 + 9 := by omega
  have h10 : j ≠ i * 11 + 10 := by omega
  rw [if_neg h10, if_neg h9, if_neg h8, if_neg h7, if_neg h6, if_neg h5,
    if_neg h4, if_neg h3, if_neg h2, if_neg h1, if_neg h0]

theorem write11_at (f : ℕ → ℝ) (i : ℕ)
    (a0 a1 a2 a3 a4 a5 a6 a7 a8 a9 a10 : ℝ) :
    write11 f i a0 a1 a2 a3 a4 a5 a6 a7 a8 a9 a10 (i * 11 + 0) = a0 ∧
    write11 f i a0 a1 a2 a3 a4 a5 a6 a7 a8 a9 a10 (i * 11 + 1) = a1 ∧
    write11 f i a0 a1 a2 a3 a4 a5 a6 a7 a8 a9 a10 (i * 11 + 2) = a2 ∧
    write11 f i a0 a1 a2 a3 a4 a5 a6 a7 a8 a9 a10 (i * 11 + 3) = a3 ∧
    write11 f i a0 a1 a2 a3 a4 a5 a6 a7 a8 a9 a10 (i * 11 + 4) = a4 ∧
    write11 f i a0 a1 a2 a3 a4 a5 a6 a7 a8 a9 a10 (i * 11 + 5) = a5 ∧
    write11 f i a0 a1 a2 a3 a4 a5 a6 a7 a8 a9 a10 (i * 11 + 6) = a6 ∧
    write11 f i a0 a1 a2 a3 a4 a5 a6 a7 a8 a9 a10 (i * 11 + 7) = a7 ∧
    write11 f i a0 a1 a2 a3 a4 a5 a6 a7 a8 a9 a10 (i * 11 + 8) = a8 ∧
    write11 f i a0 a1 a2 a3 a4 a5 a6 a7 a8 a9 a10 (i * 11 + 9) = a9 ∧
    write11 f i a0 a1 a2 a3 a4 a5 a6 a7 a8 a9 a10 (i * 11 + 10) = a10 := by
  unfold write11 writeAt
  refine ⟨?_, ?_, ?_, ?_, ?_, ?_, ?_, ?_, ?_, ?_, ?_⟩ <;>
    · repeat rw [if_neg (by omega)]
      rw [if_pos rfl]

theorem entropy_term_ge {e : ℝ} (h0 : 0 ≤ e) (h1 : e ≤ 1) :
    -(1 / 1000 : ℝ) ≤ -e * Real.log (e + 1 / 1000) := by
  by_cases hc : e + 1 / 1000 ≤ 1
  · have hlog : Real.log (e + 1 / 1000) ≤ 0 :=
      Real.log_nonpos (by linarith) hc
    nlinarith [mul_nonneg h0 (neg_nonneg.mpr hlog)]
  · push_neg at hc
    have hpos : (0 : ℝ) < e + 1 / 1000 := by linarith
    have hlog_le : Real.log (e + 1 / 1000) ≤ e + 1 / 1000 - 1 :=
      Real.log_le_sub_one_of_pos hpos
    have hlog_le2 : Real.log (e + 1 / 1000) ≤ 1 / 1000 := by linarith
    have hlog_nonneg : 0 ≤ Real.log (e + 1 / 1000) :=
      Real.log_nonneg (le_of_lt hc)
    nlinarith [mul_le_mul h1 hlog_le2 hlog_nonneg (zero_le_one' ℝ)]

theorem eigenentropyOf_ge {val0 val1 val2 : ℝ}
    (h0 : 0 ≤ val0) (h1 : 0 ≤ val1) (h2 : 0 ≤ val2) :
    -(3 / 1000 : ℝ) ≤ eigenentropyOf val0 val1 val2 := by
  unfold eigenentropyOf
  have hsum : (0 : ℝ) < val0 + val1 + val2 + 1 / 1000 := by linarith
  have he0 : 0 ≤ val0 / (val0 + val1 + val2 + 1 / 1000) := div_nonneg h0 (le_of_lt hsum)
  have he1 : 0 ≤ val1 / (val0 + val1 + val2 + 1 / 1000) := div_nonneg h1 (le_of_lt hsum)
  have he2 : 0 ≤ val2 / (val0 + val1 + val2 + 1 / 1000) := div_nonneg h2 (le_of_lt hsum)
  have hle0 : val0 / (val0 + val1 + val2 + 1 / 1000) ≤ 1 :=
    (div_le_one hsum).mpr (by linarith)
  have hle1 : val1 / (val0 + val1 + val2 + 1 / 1000) ≤ 1 :=
    (div_le_one hsum).mpr (by linarith)
  have hle2 : val2 / (val0 + val1 + val2 + 1 / 1000) ≤ 1 :=
    (div_le_one hsum).mpr (by linarith)
  have t0 := entropy_term_ge he0 hle0
  have t1 := entropy_term_ge he1 hle1
  have t2 := entropy_term_ge he2 hle2
  dsimp only
  linarith

theorem max_of_nonneg_left {a : ℝ} (h : 0 ≤ a) : max a 0 = a := max_eq_left h

theorem flipZ_z_nonneg (v : ℝ × ℝ × ℝ) : 0 ≤ (flipZ v).2.2 := by
  unfold flipZ
  split
  · next h => simp only; linarith
  · next h => exact le_of_not_lt h

/-- C4: for every neighborhood, the three eigenvalues in the `PCAOutput`
returned by `neighborhood_pca` are in descending order and nonnegative:
`val0 ≥ val1 ≥ val2 ≥ 0` — the raw solver eigenvalues are sorted
descending and each is then clamped to `max(·, 0)`. -/
theorem neighborhood_pca_val_sorted_nonneg
    (ev0 ev1 ev2 : ℝ) (w0 w1 w2 : ℝ × ℝ × ℝ) :
    (neighborhood_pca ev0 ev1 ev2 w0 w1 w2).val0 ≥
        (neighborhood_pca ev0 ev1 ev2 w0 w1 w2).val1 ∧
      (neighborhood_pca ev0 ev1 ev2 w0 w1 w2).val1 ≥
        (neighborhood_pca ev0 ev1 ev2 w0 w1 w2).val2 ∧
      0 ≤ (neighborhood_pca ev0 ev1 ev2 w0 w1 w2).val2 := by
  obtain ⟨hs1, hs2⟩ := sortPairs_sorted (ev0, w0) (ev1, w1) (ev2, w2)
  unfold neighborhood_pca
  refine ⟨?_, ?_, le_max_right _ _⟩
  · exact max_le_max hs1 (le_refl 0)
  · exact max_le_max hs2 (le_refl 0)

/-- C5: every eigenvector in the `PCAOutput` returned by
`neighborhood_pca` has a nonnegative Z component; the sign normalization
negates the whole vector exactly when the solver's vector has a negative
third coordinate and leaves it unchanged otherwise. -/
theorem neighborhood_pca_eigenvector_z_nonneg
    (ev0 ev1 ev2 : ℝ) (w0 w1 w2 v : ℝ × ℝ × ℝ) :
    0 ≤ (neighborhood_pca ev0 ev1 ev2 w0 w1 w2).v0.2.2 ∧
      0 ≤ (neighborhood_pca ev0 ev1 ev2 w0 w1 w2).v1.2.2 ∧
      0 ≤ (neighborhood_pca ev0 ev1 ev2 w0 w1 w2).v2.2.2 ∧
      (v.2.2 < 0 → flipZ v = (-v.1, -v.2.1, -v.2.2)) ∧
      (0 ≤ v.2.2 → flipZ v = v) := by
  refine ⟨?_, ?_, ?_, ?_, ?_⟩
  · exact flipZ_z_nonneg _
  · exact flipZ_z_nonneg _
  · exact flipZ_z_nonneg _
  · intro h
    unfold flipZ
    rw [if_pos h]
  · intro h
    unfold flipZ
    rw [if_neg (not_lt.mpr h)]

/-- C2 counterexample: at the solver output `ev = (1, 0, 0)` (a perfectly
collinear neighborhood, clamped eigenvalues `(1, 0, 0)`, not all zero) the
eigenentropy of `neighborhood_pca` is strictly negative: `e0 + ε` exceeds
`1`, so `-e0 * ln(e0 + ε) < 0` — the claim that it is nonnegative fails. -/
theorem neighborhood_pca_eigenentropy_neg_example :
    ((neighborhood_pca 1 0 0 (1, 0, 0) (0, 1, 0) (0, 0, 1)).val0 = 1 ∧
      (neighborhood_pca 1 0 0 (1, 0, 0) (0, 1, 0) (0, 0, 1)).val1 = 0 ∧
      (neighborhood_pca 1 0 0 (1, 0, 0) (0, 1, 0) (0, 0, 1)).val2 = 0) ∧
    (neighborhood_pca 1 0 0 (1, 0, 0) (0, 1, 0) (0, 0, 1)).eigenentropy < 0 := by
  have hpca : neighborhood_pca 1 0 0 (1, 0, 0) (0, 1, 0) (0, 0, 1) =
      { val0 := 1, val1 := 0, val2 := 0,
        v0 := (1, 0, 0), v1 := (0, 1, 0), v2 := (0, 0, 1),
        eigenentropy := eigenentropyOf 1 0 0 } := by
    unfold neighborhood_pca sortPairs sortPair flipZ
    norm_num
  rw [hpca]
  refine ⟨⟨rfl, rfl, rfl⟩, ?_⟩
  show eigenentropyOf 1 0 0 < 0
  unfold eigenentropyOf
  have h1 : (1 : ℝ) / (1 + 0 + 0 + 1 / 1000) = 1000 / 1001 := by norm_num
  have h2 : (0 : ℝ) / (1 + 0 + 0 + 1 / 1000) = 0 := by norm_num
  dsimp only
  rw [h1, h2]
  have hlog : 0 < Real.log (1000 / 1001 + 1 / 1000) := Real.log_pos (by norm_num)
  have hmul : 0 < (1000 / 1001 : ℝ) * Real.log (1000 / 1001 + 1 / 1000) :=
    mul_pos (by norm_num) hlog
  simp only [neg_mul, zero_mul, sub_zero]
  linarith

/-- C2 amended: for every solver output (hence every neighborhood), the
eigenentropy computed by `neighborhood_pca` is bounded below by
`-3ε = -0.003`; it is finite but need not be nonnegative (the `ε` inside
the logarithm makes it slightly negative when one normalized eigenvalue is
close to 1). -/
theorem neighborhood_pca_eigenentropy_lower_bound
    (ev0 ev1 ev2 : ℝ) (w0 w1 w2 : ℝ × ℝ × ℝ) :
    -(3 / 1000 : ℝ) ≤ (neighborhood_pca ev0 ev1 ev2 w0 w1 w2).eigenentropy := by
  unfold neighborhood_pca
  exact eigenentropyOf_ge (le_max_right _ _) (le_max_right _ _) (le_max_right _ _)

theorem searchK_spec (ent : ℕ → ℝ) (k0 k_step k_nn : ℕ) (h : k0 ≤ k_nn) :
    ∃ r, searchK ent k0 k_step k_nn = some r ∧
      r ∈ loopKs k0 k_step k_nn ∧
      (∀ k ∈ loopKs k0 k_step k_nn, ent r ≤ ent k) ∧
      ∃ l₁ l₂, loopKs k0 k_step k_nn = l₁ ++ r :: l₂ ∧
        ∀ k ∈ l₁, ent r < ent k := by
  obtain ⟨rest, hcons, hrest⟩ := @loopKs_eq_cons k0 k_step k_nn h
  obtain ⟨l₁, l₂, hsplit, hfirst, hmin⟩ := foldl_sel_first ent rest k0
  set r := rest.foldl (fun j k => if ent k < ent j then k else j) k0 with hr
  refine ⟨r, ?_, ?_, ?_, l₁, l₂, ?_, hfirst⟩
  · unfold searchK
    rw [hcons, List.foldl_cons]
    have hsel : selStep ent k0 none k0 = some k0 := by
      unfold selStep
      rw [if_pos rfl]
    rw [hsel, foldl_selStep_some ent k0 rest k0 hrest]
  · rw [hcons, hsplit]
    exact List.mem_append_right _ (List.mem_cons_self _ _)
  · intro k hk
    rw [hcons] at hk
    exact hmin k hk
  · rw [hcons, hsplit]

theorem size_t_k0_cast (k_min k_min_search : ℤ) (k_nn : ℕ)
    (hk0 : 0 ≤ k0_of k_min k_min_search k_nn) (hknn : k_nn < 2 ^ 32) :
    size_t_of_int (k0_of k_min k_min_search k_nn) = (k0_of k_min k_min_search k_nn).toNat ∧
      (k0_of k_min k_min_search k_nn).toNat ≤ k_nn := by
  have hle : k0_of k_min k_min_search k_nn ≤ (k_nn : ℤ) := min_le_right _ _
  have hcast : (k_nn : ℤ) < 2 ^ 32 := by exact_mod_cast hknn
  have h32 : (2 : ℤ) ^ 32 < 2 ^ 64 := by norm_num
  refine ⟨size_t_of_int_ofNat _ hk0 (by omega), ?_⟩
  omega

theorem size_t_step_cast (k_step : ℤ) (hstep : 1 ≤ k_step) (hstep2 : k_step < 2 ^ 31) :
    size_t_of_int k_step = k_step.toNat := by
  have h31 : (2 : ℤ) ^ 31 < 2 ^ 64 := by norm_num
  exact size_t_of_int_ofNat _ (by omega) (by omega)

/-- C3: in the adaptive neighborhood search the first evaluated candidate
`k0` is the incumbent, and a later candidate replaces the incumbent only
when its eigenentropy is strictly lower; consequently the retained
neighborhood size `r` is the first candidate attaining the minimal
eigenentropy — every candidate strictly before `r` in evaluation order has
strictly greater eigenentropy, so on an exact tie the earlier (smaller-k)
candidate's PCA result is the one retained. -/
theorem adaptive_search_retains_first_min (pcaAt : ℕ → PCAOutput)
    (k_min k_step k_min_search : ℤ) (k_nn : ℕ)
    (hstep : 1 ≤ k_step) (hstep2 : k_step < 2 ^ 31)
    (hk0 : 0 ≤ k0_of k_min k_min_search k_nn) (hknn : k_nn < 2 ^ 32) :
    ∃ r, searchK (fun k => (pcaAt k).eigenentropy)
          (size_t_of_int (k0_of k_min k_min_search k_nn)) (size_t_of_int k_step) k_nn =
          some r ∧
      retainedPCA pcaAt k_min k_step k_min_search k_nn = pcaAt r ∧
      r ∈ loopKs (size_t_of_int (k0_of k_min k_min_search k_nn)) (size_t_of_int k_step) k_nn ∧
      (∀ k ∈ loopKs (size_t_of_int (k0_of k_min k_min_search k_nn))
          (size_t_of_int k_step) k_nn,
        (pcaAt r).eigenentropy ≤ (pcaAt k).eigenentropy) ∧
      ∃ l₁ l₂,
        loopKs (size_t_of_int (k0_of k_min k_min_search k_nn)) (size_t_of_int k_step) k_nn =
          l₁ ++ r :: l₂ ∧
        ∀ k ∈ l₁, (pcaAt r).eigenentropy < (pcaAt k).eigenentropy := by
  obtain ⟨hc, hle⟩ := size_t_k0_cast k_min k_min_search k_nn hk0 hknn
  have hk0le : size_t_of_int (k0_of k_min k_min_search k_nn) ≤ k_nn := by rw [hc]; exact hle
  obtain ⟨r, hsearch, hmem, hmin, l₁, l₂, hsplit, hfirst⟩ :=
    searchK_spec (fun k => (pcaAt k).eigenentropy)
      (size_t_of_int (k0_of k_min k_min_search k_nn)) (size_t_of_int k_step) k_nn hk0le
  refine ⟨r, hsearch, ?_, hmem, hmin, l₁, l₂, hsplit, hfirst⟩
  unfold retainedPCA
  rw [if_neg (by omega : ¬k_step < 1), hsearch]

/-- C3 witness: the search theorem applied at a concrete configuration
(`k_min = 1`, `k_step = 1`, `k_min_search = 1`, `k_nn = 2`, all PCA
results equal). -/
theorem adaptive_search_retains_first_min_witness :
    ((1 : ℤ) ≤ 1 ∧ (1 : ℤ) < 2 ^ 31 ∧ 0 ≤ k0_of 1 1 2 ∧ (2 : ℕ) < 2 ^ 32) ∧
    ∃ r, searchK
          (fun k => ((fun _ => PCAOutput.mk 0 0 0 (0, 0, 0) (0, 0, 0) (0, 0, 0) 0) k).eigenentropy)
          (size_t_of_int (k0_of 1 1 2)) (size_t_of_int 1) 2 = some r ∧
      retainedPCA (fun _ => PCAOutput.mk 0 0 0 (0, 0, 0) (0, 0, 0) (0, 0, 0) 0) 1 1 1 2 =
        (fun _ => PCAOutput.mk 0 0 0 (0, 0, 0) (0, 0, 0) (0, 0, 0) 0) r ∧
      r ∈ loopKs (size_t_of_int (k0_of 1 1 2)) (size_t_of_int 1) 2 ∧
      (∀ k ∈ loopKs (size_t_of_int (k0_of 1 1 2)) (size_t_of_int 1) 2,
        ((fun _ => PCAOutput.mk 0 0 0 (0, 0, 0) (0, 0, 0) (0, 0, 0) 0) r).eigenentropy ≤
          ((fun _ => PCAOutput.mk 0 0 0 (0, 0, 0) (0, 0, 0) (0, 0, 0) 0) k).eigenentropy) ∧
      ∃ l₁ l₂,
        loopKs (size_t_of_int (k0_of 1 1 2)) (size_t_of_int 1) 2 = l₁ ++ r :: l₂ ∧
        ∀ k ∈ l₁,
          ((fun _ => PCAOutput.mk 0 0 0 (0, 0, 0) (0, 0, 0) (0, 0, 0) 0) r).eigenentropy <
            ((fun _ => PCAOutput.mk 0 0 0 (0, 0, 0) (0, 0, 0) (0, 0, 0) 0) k).eigenentropy :=
  ⟨⟨by norm_num, by norm_num, by decide, by norm_num⟩,
    adaptive_search_retains_first_min
      (fun _ => PCAOutput.mk 0 0 0 (0, 0, 0) (0, 0, 0) (0, 0, 0) 0) 1 1 1 2
      (by norm_num) (by norm_num) (by decide) (by norm_num)⟩

/-- C1 amended: when adaptive search is enabled (`k_step ≥ 1`) and the
point is processed (degenerate guard false), the set of neighborhood sizes
at which the PCA is evaluated is exactly the multiples of `k_step` lying
in `[k0, k_nn]`, together with `k0` and `k_nn` themselves unconditionally,
where `k0 = min(max(k_min, k_min_search), k_nn)` — the loop tests
`k % k_step == 0`, so the stride pattern is anchored at multiples of
`k_step`, not at the arithmetic progression starting from `k0`. -/
theorem evaluatedKs_adaptive_charac (k_min k_step k_min_search : ℤ) (k_nn : ℕ)
    (hstep : 1 ≤ k_step) (hstep2 : k_step < 2 ^ 31)
    (hk0 : 0 ≤ k0_of k_min k_min_search k_nn) (hknn : k_nn < 2 ^ 32)
    (hguard : ¬degenerate_guard k_min k_nn) :
    ∀ k, k ∈ evaluatedKs k_min k_step k_min_search k_nn ↔
      ((k0_of k_min k_min_search k_nn).toNat ≤ k ∧ k ≤ k_nn ∧
        (k = (k0_of k_min k_min_search k_nn).toNat ∨
          k % k_step.toNat = 0 ∨ k = k_nn)) := by
  obtain ⟨hc, hle⟩ := size_t_k0_cast k_min k_min_search k_nn hk0 hknn
  have hsc := size_t_step_cast k_step hstep hstep2
  intro k
  unfold evaluatedKs
  rw [if_neg hguard, if_neg (by omega : ¬k_step < 1), hc, hsc, mem_loopKs]
  constructor
  · rintro ⟨⟨h1, h2⟩, h3⟩
    refine ⟨h1, by omega, ?_⟩
    by_cases he : k = (k0_of k_min k_min_search k_nn).toNat
    · exact Or.inl he
    · by_cases hm : k % k_step.toNat = 0
      · exact Or.inr (Or.inl hm)
      · right; right
        by_contra hne
        exact h3 ⟨by omega, hm, hne⟩
  · rintro ⟨h1, h2, h3⟩
    refine ⟨⟨h1, by omega⟩, ?_⟩
    rintro ⟨hgt, hm, hne⟩
    rcases h3 with h | h | h
    · omega
    · exact hm h
    · exact hne h

/-- C1 counterexample: with `k_min = 5`, `k_step = 4`, `k_min_search = 5`
and `k_nn = 13` we have `k0 = 5`; the spec's candidate set (the
progression from `k0` with stride `k_step`, plus `k_nn`) is `{5, 9, 13}`,
but the code evaluates the PCA at `k = 8` (a multiple of `k_step`) and
skips `k = 9` (not a multiple), so the two sets differ. -/
theorem evaluatedKs_progression_counterexample :
    (k0_of 5 5 13).toNat = 5 ∧
      8 ∈ evaluatedKs 5 4 5 13 ∧ ¬specCandidate 5 4 13 8 ∧
      9 ∉ evaluatedKs 5 4 5 13 ∧ specCandidate 5 4 13 9 := by
  refine ⟨by decide, ?_, by decide, ?_, by decide⟩
  · have : evaluatedKs 5 4 5 13 = loopKs 5 4 13 := by
      unfold evaluatedKs
      rw [if_neg (by decide), if_neg (by decide)]
      norm_num [size_t_of_int, k0_of]
      rfl
    rw [this]
    decide
  · have : evaluatedKs 5 4 5 13 = loopKs 5 4 13 := by
      unfold evaluatedKs
      rw [if_neg (by decide), if_neg (by decide)]
      norm_num [size_t_of_int, k0_of]
      rfl
    rw [this]
    decide

/-- C1 witness: the characterization applied at the concrete configuration
`k_min = 2`, `k_step = 2`, `k_min_search = 2`, `k_nn = 5`. -/
theorem evaluatedKs_adaptive_charac_witness :
    ((1 : ℤ) ≤ 2 ∧ (2 : ℤ) < 2 ^ 31 ∧ 0 ≤ k0_of 2 2 5 ∧ (5 : ℕ) < 2 ^ 32 ∧
      ¬degenerate_guard 2 5) ∧
    ∀ k, k ∈ evaluatedKs 2 2 2 5 ↔
      ((k0_of 2 2 5).toNat ≤ k ∧ k ≤ 5 ∧
        (k = (k0_of 2 2 5).toNat ∨ k % (2 : ℤ).toNat = 0 ∨ k = 5)) :=
  ⟨⟨by norm_num, by norm_num, by decide, by norm_num, by decide⟩,
    evaluatedKs_adaptive_charac 2 2 2 5 (by norm_num) (by norm_num) (by decide)
      (by norm_num) (by decide)⟩

theorem guard_zero_fill (features : ℕ → ℝ) (i : ℕ) (pcaAt : ℕ → PCAOutput)
    (k_min k_step k_min_search : ℤ) (k_nn : ℕ)
    (hguard : degenerate_guard k_min k_nn) :
    (∀ m, m < 11 →
      compute_geometric_features_point features i pcaAt k_min k_step k_min_search k_nn
        (i * 11 + m) = 0) ∧
      evaluatedKs k_min k_step k_min_search k_nn = [] := by
  constructor
  · intro m hm
    unfold compute_geometric_features_point
    rw [if_pos hguard]
    have h11 := write11_at features i 0 0 0 0 0 0 0 0 0 0 0
    interval_cases m <;> tauto
  · unfold evaluatedKs
    rw [if_pos hguard]

/-- C6: for every point whose neighbor count `k_nn` is strictly below
`k_min` (as integers) or equal to zero, the per-point computation writes
exactly eleven zeros into the point's output slice and performs no PCA
evaluation (`evaluatedKs` is empty).  `k_min < 2^31` is the `int` range
bound of the `k_min` parameter. -/
theorem degenerate_point_zero_fill (features : ℕ → ℝ) (i : ℕ) (pcaAt : ℕ → PCAOutput)
    (k_min k_step k_min_search : ℤ) (k_nn : ℕ)
    (h : (k_nn : ℤ) < k_min ∨ k_nn = 0) (hrange : k_min < 2 ^ 31) :
    (∀ m, m < 11 →
      compute_geometric_features_point features i pcaAt k_min k_step k_min_search k_nn
        (i * 11 + m) = 0) ∧
      evaluatedKs k_min k_step k_min_search k_nn = [] := by
  have hguard : degenerate_guard k_min k_nn := by
    unfold degenerate_guard
    rcases h with h | h
    · left
      have h0 : 0 ≤ k_min := by omega
      have h31 : (2 : ℤ) ^ 31 = 2147483648 := by norm_num
      have h64 : (2 : ℤ) ^ 64 = 18446744073709551616 := by norm_num
      rw [size_t_of_int_ofNat k_min h0 (by omega)]
      omega
    · exact Or.inr h
  exact guard_zero_fill features i pcaAt k_min k_step k_min_search k_nn hguard

/-- C6 witness: a point with one neighbor and `k_min = 2` is zero-filled
with no PCA evaluation. -/
theorem degenerate_point_zero_fill_witness :
    (((1 : ℕ) : ℤ) < 2 ∨ (1 : ℕ) = 0) ∧ ((2 : ℤ) < 2 ^ 31) ∧
    ((∀ m, m < 11 →
      compute_geometric_features_point (fun _ => 0) 0
        (fun _ => PCAOutput.mk 0 0 0 (0, 0, 0) (0, 0, 0) (0, 0, 0) 0) 2 0 0 1
        (0 * 11 + m) = 0) ∧
      evaluatedKs 2 0 0 1 = []) :=
  ⟨by norm_num, by norm_num,
    degenerate_point_zero_fill (fun _ => 0) 0
      (fun _ => PCAOutput.mk 0 0 0 (0, 0, 0) (0, 0, 0) (0, 0, 0) 0) 2 0 0 1
      (by norm_num) (by norm_num)⟩

/-- C10: for every negative `int` value of `k_min`, the guard
`k_nn < k_min` compares the unsigned `k_nn` with the conversion of the
negative `k_min` to `size_t` (an enormous value of at least
`2^64 - 2^31`), so it holds for every point (`k_nn < 2^32` since `k_nn`
is a difference of `uint32` offsets) and the point is zero-filled with no
PCA evaluation. -/
theorem negative_k_min_zero_fill (features : ℕ → ℝ) (i : ℕ) (pcaAt : ℕ → PCAOutput)
    (k_min k_step k_min_search : ℤ) (k_nn : ℕ)
    (hneg : k_min < 0) (hrange : -(2 ^ 31) ≤ k_min) (hknn : k_nn < 2 ^ 32) :
    degenerate_guard k_min k_nn ∧
      (∀ m, m < 11 →
        compute_geometric_features_point features i pcaAt k_min k_step k_min_search k_nn
          (i * 11 + m) = 0) ∧
      evaluatedKs k_min k_step k_min_search k_nn = [] := by
  have hguard : degenerate_guard k_min k_nn := by
    unfold degenerate_guard
    left
    unfold size_t_of_int
    have h31 : (2 : ℤ) ^ 31 = 2147483648 := by norm_num
    have h64 : (2 : ℤ) ^ 64 = 18446744073709551616 := by norm_num
    have h32 : (2 : ℕ) ^ 32 = 4294967296 := by norm_num
    omega
  exact ⟨hguard, guard_zero_fill features i pcaAt k_min k_step k_min_search k_nn hguard⟩

/-- C10 witness: `k_min = -1` zero-fills a point with 100 neighbors. -/
theorem negative_k_min_zero_fill_witness :
    ((-1 : ℤ) < 0 ∧ -(2 ^ 31) ≤ (-1 : ℤ) ∧ (100 : ℕ) < 2 ^ 32) ∧
    (degenerate_guard (-1) 100 ∧
      (∀ m, m < 11 →
        compute_geometric_features_point (fun _ => 0) 0
          (fun _ => PCAOutput.mk 0 0 0 (0, 0, 0) (0, 0, 0) (0, 0, 0) 0) (-1) 1 10 100
          (0 * 11 + m) = 0) ∧
      evaluatedKs (-1) 1 10 100 = []) :=
  ⟨⟨by norm_num, by norm_num, by norm_num⟩,
    negative_k_min_zero_fill (fun _ => 0) 0
      (fun _ => PCAOutput.mk 0 0 0 (0, 0, 0) (0, 0, 0) (0, 0, 0) 0) (-1) 1 10 100
      (by norm_num) (by norm_num) (by norm_num)⟩

/-- C9: the computation for point `i` writes only the eleven output slots
`11*i .. 11*i+10`: every other location of the output buffer is unchanged
(the read-only inputs are immutable by construction in this functional
embedding). -/
theorem point_write_frame (features : ℕ → ℝ) (i : ℕ) (pcaAt : ℕ → PCAOutput)
    (k_min k_step k_min_search : ℤ) (k_nn : ℕ) (j : ℕ)
    (h : j < i * 11 ∨ i * 11 + 10 < j) :
    compute_geometric_features_point features i pcaAt k_min k_step k_min_search k_nn j =
      features j := by
  unfold compute_geometric_features_point
  by_cases hguard : degenerate_guard k_min k_nn
  · rw [if_pos hguard]
    exact write11_frame features i 0 0 0 0 0 0 0 0 0 0 0 j h
  · rw [if_neg hguard]
    exact write11_frame features i _ _ _ _ _ _ _ _ _ _ _ j h

/-- C9 witness: slot 12 of the buffer is untouched by point 0. -/
theorem point_write_frame_witness :
    ((12 : ℕ) < 0 * 11 ∨ 0 * 11 + 10 < 12) ∧
    compute_geometric_features_point (fun j => (j : ℝ)) 0
      (fun _ => PCAOutput.mk 0 0 0 (0, 0, 0) (0, 0, 0) (0, 0, 0) 0) 1 1 1 3 12 =
      (fun j => (j : ℝ)) 12 :=
  ⟨by norm_num,
    point_write_frame (fun j => (j : ℝ)) 0
      (fun _ => PCAOutput.mk 0 0 0 (0, 0, 0) (0, 0, 0) (0, 0, 0) 0) 1 1 1 3 12
      (by norm_num)⟩

theorem compute_point_nondegenerate (features : ℕ → ℝ) (i : ℕ) (pcaAt : ℕ → PCAOutput)
    (k_min k_step k_min_search : ℤ) (k_nn : ℕ)
    (hguard : ¬degenerate_guard k_min k_nn) :
    compute_geometric_features_point features i pcaAt k_min k_step k_min_search k_nn =
      write11 features i
        ((Real.sqrt (retainedPCA pcaAt k_min k_step k_min_search k_nn).val0 -
            Real.sqrt (retainedPCA pcaAt k_min k_step k_min_search k_nn).val1) /
          (Real.sqrt (retainedPCA pcaAt k_min k_step k_min_search k_nn).val0 + 1 / 1000))
        ((Real.sqrt (retainedPCA pcaAt k_min k_step k_min_search k_nn).val1 -
            Real.sqrt (retainedPCA pcaAt k_min k_step k_min_search k_nn).val2) /
          (Real.sqrt (retainedPCA pcaAt k_min k_step k_min_search k_nn).val0 + 1 / 1000))
        (Real.sqrt (retainedPCA pcaAt k_min k_step k_min_search k_nn).val2 /
          (Real.sqrt (retainedPCA pcaAt k_min k_step k_min_search k_nn).val0 + 1 / 1000))
        (if 0 < Real.sqrt (retainedPCA pcaAt k_min k_step k_min_search k_nn).val0 then
          ((retainedPCA pcaAt k_min k_step k_min_search k_nn).val0 *
              |(retainedPCA pcaAt k_min k_step k_min_search k_nn).v0.2.2| +
            (retainedPCA pcaAt k_min k_step k_min_search k_nn).val1 *
              |(retainedPCA pcaAt k_min k_step k_min_search k_nn).v1.2.2| +
            (retainedPCA pcaAt k_min k_step k_min_search k_nn).val2 *
              |(retainedPCA pcaAt k_min k_step k_min_search k_nn).v2.2.2|) /
            Real.sqrt
              (((retainedPCA pcaAt k_min k_step k_min_search k_nn).val0 *
                  |(retainedPCA pcaAt k_min k_step k_min_search k_nn).v0.1| +
                (retainedPCA pcaAt k_min k_step k_min_search k_nn).val1 *
                  |(retainedPCA pcaAt k_min k_step k_min_search k_nn).v1.1| +
                (retainedPCA pcaAt k_min k_step k_min_search k_nn).val2 *
                  |(retainedPCA pcaAt k_min k_step k_min_search k_nn).v2.1|) *
                ((retainedPCA pcaAt k_min k_step k_min_search k_nn).val0 *
                  |(retainedPCA pcaAt k_min k_step k_min_search k_nn).v0.1| +
                (retainedPCA pcaAt k_min k_step k_min_search k_nn).val1 *
                  |(retainedPCA pcaAt k_min k_step k_min_search k_nn).v1.1| +
                (retainedPCA pcaAt k_min k_step k_min_search k_nn).val2 *
                  |(retainedPCA pcaAt k_min k_step k_min_search k_nn).v2.1|) +
              ((retainedPCA pcaAt k_min k_step k_min_search k_nn).val0 *
                  |(retainedPCA pcaAt k_min k_step k_min_search k_nn).v0.2.1| +
                (retainedPCA pcaAt k_min k_step k_min_search k_nn).val1 *
                  |(retainedPCA pcaAt k_min k_step k_min_search k_nn).v1.2.1| +
                (retainedPCA pcaAt k_min k_step k_min_search k_nn).val2 *
                  |(retainedPCA pcaAt k_min k_step k_min_search k_nn).v2.2.1|) *
                ((retainedPCA pcaAt k_min k_step k_min_search k_nn).val0 *
                  |(retainedPCA pcaAt k_min k_step k_min_search k_nn).v0.2.1| +
                (retainedPCA pcaAt k_min k_step k_min_search k_nn).val1 *
                  |(retainedPCA pcaAt k_min k_step k_min_search k_nn).v1.2.1| +
                (retainedPCA pcaAt k_min k_step k_min_search k_nn).val2 *
                  |(retainedPCA pcaAt k_min k_step k_min_search k_nn).v2.2.1|) +
              ((retainedPCA pcaAt k_min k_step k_min_search k_nn).val0 *
                  |(retainedPCA pcaAt k_min k_step k_min_search k_nn).v0.2.2| +
                (retainedPCA pcaAt k_min k_step k_min_search k_nn).val1 *
                  |(retainedPCA pcaAt k_min k_step k_min_search k_nn).v1.2.2| +
                (retainedPCA pcaAt k_min k_step k_min_search k_nn).val2 *
                  |(retainedPCA pcaAt k_min k_step k_min_search k_nn).v2.2.2|) *
                ((retainedPCA pcaAt k_min k_step k_min_search k_nn).val0 *
                  |(retainedPCA pcaAt k_min k_step k_min_search k_nn).v0.2.2| +
                (retainedPCA pcaAt k_min k_step k_min_search k_nn).val1 *
                  |(retainedPCA pcaAt k_min k_step k_min_search k_nn).v1.2.2| +
                (retainedPCA pcaAt k_min k_step k_min_search k_nn).val2 *
                  |(retainedPCA pcaAt k_min k_step k_min_search k_nn).v2.2.2|))
        else 0)
        (retainedPCA pcaAt k_min k_step k_min_search k_nn).v2.1
        (retainedPCA pcaAt k_min k_step k_min_search k_nn).v2.2.1
        (retainedPCA pcaAt k_min k_step k_min_search k_nn).v2.2.2
        (Real.sqrt (retainedPCA pcaAt k_min k_step k_min_search k_nn).val0)
        (Real.sqrt
          (Real.sqrt (retainedPCA pcaAt k_min k_step k_min_search k_nn).val0 *
              Real.sqrt (retainedPCA pcaAt k_min k_step k_min_search k_nn).val1 +
            1 / 1000000))
        ((Real.sqrt (retainedPCA pcaAt k_min k_step k_min_search k_nn).val0 *
              Real.sqrt (retainedPCA pcaAt k_min k_step k_min_search k_nn).val1 *
              Real.sqrt (retainedPCA pcaAt k_min k_step k_min_search k_nn).val2 +
            1 / 1000000000) ^ ((1 : ℝ) / 3))
        (Real.sqrt (retainedPCA pcaAt k_min k_step k_min_search k_nn).val2 /
          (Real.sqrt (retainedPCA pcaAt k_min k_step k_min_search k_nn).val0 +
            Real.sqrt (retainedPCA pcaAt k_min k_step k_min_search k_nn).val1 +
            Real.sqrt (retainedPCA pcaAt k_min k_step k_min_search k_nn).val2 + 1 / 1000)) := by
  unfold compute_geometric_features_point
  rw [if_neg hguard]

/-- C7: for every non-degenerate point, with `a0 = √λ0`, `a1 = √λ1`,
`a2 = √λ2` taken from the retained PCA result, the derived features
written to the output are `linearity = (a0-a1)/(a0+1e-3)`,
`planarity = (a1-a2)/(a0+1e-3)`, `scattering = a2/(a0+1e-3)`,
`length = a0`, `surface = √(a0*a1+1e-6)`,
`volume = (a0*a1*a2+1e-9)^(1/3)`, `curvature = a2/(a0+a1+a2+1e-3)`. -/
theorem derived_features_formulas (features : ℕ → ℝ) (i : ℕ) (pcaAt : ℕ → PCAOutput)
    (k_min k_step k_min_search : ℤ) (k_nn : ℕ)
    (hguard : ¬degenerate_guard k_min k_nn) :
    ∃ pca, pca = retainedPCA pcaAt k_min k_step k_min_search k_nn ∧
      compute_geometric_features_point features i pcaAt k_min k_step k_min_search k_nn
          (i * 11 + 0) =
        (Real.sqrt pca.val0 - Real.sqrt pca.val1) / (Real.sqrt pca.val0 + 1 / 1000) ∧
      compute_geometric_features_point features i pcaAt k_min k_step k_min_search k_nn
          (i * 11 + 1) =
        (Real.sqrt pca.val1 - Real.sqrt pca.val2) / (Real.sqrt pca.val0 + 1 / 1000) ∧
      compute_geometric_features_point features i pcaAt k_min k_step k_min_search k_nn
          (i * 11 + 2) =
        Real.sqrt pca.val2 / (Real.sqrt pca.val0 + 1 / 1000) ∧
      compute_geometric_features_point features i pcaAt k_min k_step k_min_search k_nn
          (i * 11 + 7) =
        Real.sqrt pca.val0 ∧
      compute_geometric_features_point features i pcaAt k_min k_step k_min_search k_nn
          (i * 11 + 8) =
        Real.sqrt (Real.sqrt pca.val0 * Real.sqrt pca.val1 + 1 / 1000000) ∧
      compute_geometric_features_point features i pcaAt k_min k_step k_min_search k_nn
          (i * 11 + 9) =
        (Real.sqrt pca.val0 * Real.sqrt pca.val1 * Real.sqrt pca.val2 +
          1 / 1000000000) ^ ((1 : ℝ) / 3) ∧
      compute_geometric_features_point features i pcaAt k_min k_step k_min_search k_nn
          (i * 11 + 10) =
        Real.sqrt pca.val2 /
          (Real.sqrt pca.val0 + Real.sqrt pca.val1 + Real.sqrt pca.val2 + 1 / 1000) := by
  refine ⟨_, rfl, ?_, ?_, ?_, ?_, ?_, ?_, ?_⟩ <;>
    rw [compute_point_nondegenerate features i pcaAt k_min k_step k_min_search k_nn hguard]
  · exact (write11_at features i _ _ _ _ _ _ _ _ _ _ _).1
  · exact (write11_at features i _ _ _ _ _ _ _ _ _ _ _).2.1
  · exact (write11_at features i _ _ _ _ _ _ _ _ _ _ _).2.2.1
  · exact (write11_at features i _ _ _ _ _ _ _ _ _ _ _).2.2.2.2.2.2.2.1
  · exact (write11_at features i _ _ _ _ _ _ _ _ _ _ _).2.2.2.2.2.2.2.2.1
  · exact (write11_at features i _ _ _ _ _ _ _ _ _ _ _).2.2.2.2.2.2.2.2.2.1
  · exact (write11_at features i _ _ _ _ _ _ _ _ _ _ _).2.2.2.2.2.2.2.2.2.2

/-- C7 witness: the formulas hold at a concrete non-degenerate
configuration (`k_min = 1`, `k_step = 0`, `k_nn = 2`, constant PCA). -/
theorem derived_features_formulas_witness :
    (¬degenerate_guard 1 2) ∧
    ∃ pca, pca = retainedPCA (fun _ => PCAOutput.mk 1 0 0 (1, 0, 0) (0, 1, 0) (0, 0, 1) 0)
        1 0 0 2 ∧
      compute_geometric_features_point (fun _ => 0) 0
          (fun _ => PCAOutput.mk 1 0 0 (1, 0, 0) (0, 1, 0) (0, 0, 1) 0) 1 0 0 2
          (0 * 11 + 0) =
        (Real.sqrt pca.val0 - Real.sqrt pca.val1) / (Real.sqrt pca.val0 + 1 / 1000) ∧
      compute_geometric_features_point (fun _ => 0) 0
          (fun _ => PCAOutput.mk 1 0 0 (1, 0, 0) (0, 1, 0) (0, 0, 1) 0) 1 0 0 2
          (0 * 11 + 1) =
        (Real.sqrt pca.val1 - Real.sqrt pca.val2) / (Real.sqrt pca.val0 + 1 / 1000) ∧
      compute_geometric_features_point (fun _ => 0) 0
          (fun _ => PCAOutput.mk 1 0 0 (1, 0, 0) (0, 1, 0) (0, 0, 1) 0) 1 0 0 2
          (0 * 11 + 2) =
        Real.sqrt pca.val2 / (Real.sqrt pca.val0 + 1 / 1000) ∧
      compute_geometric_features_point (fun _ => 0) 0
          (fun _ => PCAOutput.mk 1 0 0 (1, 0, 0) (0, 1, 0) (0, 0, 1) 0) 1 0 0 2
          (0 * 11 + 7) =
        Real.sqrt pca.val0 ∧
      compute_geometric_features_point (fun _ => 0) 0
          (fun _ => PCAOutput.mk 1 0 0 (1, 0, 0) (0, 1, 0) (0, 0, 1) 0) 1 0 0 2
          (0 * 11 + 8) =
        Real.sqrt (Real.sqrt pca.val0 * Real.sqrt pca.val1 + 1 / 1000000) ∧
      compute_geometric_features_point (fun _ => 0) 0
          (fun _ => PCAOutput.mk 1 0 0 (1, 0, 0) (0, 1, 0) (0, 0, 1) 0) 1 0 0 2
          (0 * 11 + 9) =
        (Real.sqrt pca.val0 * Real.sqrt pca.val1 * Real.sqrt pca.val2 +
          1 / 1000000000) ^ ((1 : ℝ) / 3) ∧
      compute_geometric_features_point (fun _ => 0) 0
          (fun _ => PCAOutput.mk 1 0 0 (1, 0, 0) (0, 1, 0) (0, 0, 1) 0) 1 0 0 2
          (0 * 11 + 10) =
        Real.sqrt pca.val2 /
          (Real.sqrt pca.val0 + Real.sqrt pca.val1 + Real.sqrt pca.val2 + 1 / 1000) :=
  ⟨by decide,
    derived_features_formulas (fun _ => 0) 0
      (fun _ => PCAOutput.mk 1 0 0 (1, 0, 0) (0, 1, 0) (0, 0, 1) 0) 1 0 0 2 (by decide)⟩

/-- C8: for every non-degenerate point, when `a0 = √λ0 > 0` the
verticality written at slot 3 equals `u.z / ‖u‖` where
`u = λ0*|v0| + λ1*|v1| + λ2*|v2|` (component-wise absolute values of the
retained eigenvectors weighted by their eigenvalues), and when `a0 = 0`
the verticality equals `0`. -/
theorem verticality_formula (features : ℕ → ℝ) (i : ℕ) (pcaAt : ℕ → PCAOutput)
    (k_min k_step k_min_search : ℤ) (k_nn : ℕ)
    (hguard : ¬degenerate_guard k_min k_nn) :
    ∃ pca, pca = retainedPCA pcaAt k_min k_step k_min_search k_nn ∧
      (0 < Real.sqrt pca.val0 →
        compute_geometric_features_point features i pcaAt k_min k_step k_min_search k_nn
            (i * 11 + 3) =
          (pca.val0 * |pca.v0.2.2| + pca.val1 * |pca.v1.2.2| + pca.val2 * |pca.v2.2.2|) /
            Real.sqrt
              ((pca.val0 * |pca.v0.1| + pca.val1 * |pca.v1.1| + pca.val2 * |pca.v2.1|) *
                (pca.val0 * |pca.v0.1| + pca.val1 * |pca.v1.1| + pca.val2 * |pca.v2.1|) +
              (pca.val0 * |pca.v0.2.1| + pca.val1 * |pca.v1.2.1| + pca.val2 * |pca.v2.2.1|) *
                (pca.val0 * |pca.v0.2.1| + pca.val1 * |pca.v1.2.1| + pca.val2 * |pca.v2.2.1|) +
              (pca.val0 * |pca.v0.2.2| + pca.val1 * |pca.v1.2.2| + pca.val2 * |pca.v2.2.2|) *
                (pca.val0 * |pca.v0.2.2| + pca.val1 * |pca.v1.2.2| + pca.val2 * |pca.v2.2.2|))) ∧
      (Real.sqrt pca.val0 = 0 →
        compute_geometric_features_point features i pcaAt k_min k_step k_min_search k_nn
            (i * 11 + 3) = 0) := by
  refine ⟨_, rfl, ?_, ?_⟩ <;>
    rw [compute_point_nondegenerate features i pcaAt k_min k_step k_min_search k_nn hguard,
      (write11_at features i _ _ _ _ _ _ _ _ _ _ _).2.2.2.1]
  · intro h
    rw [if_pos h]
  · intro h
    rw [if_neg (by rw [h]; exact lt_irrefl 0)]

/-- C8 witness: the verticality formula applied at a concrete
non-degenerate configuration with positive `λ0`. -/
theorem verticality_formula_witness :
    (¬degenerate_guard 1 2) ∧
    ∃ pca, pca = retainedPCA (fun _ => PCAOutput.mk 1 0 0 (1, 0, 0) (0, 1, 0) (0, 0, 1) 0)
        1 0 0 2 ∧
      (0 < Real.sqrt pca.val0 →
        compute_geometric_features_point (fun _ => 0) 0
            (fun _ => PCAOutput.mk 1 0 0 (1, 0, 0) (0, 1, 0) (0, 0, 1) 0) 1 0 0 2
            (0 * 11 + 3) =
          (pca.val0 * |pca.v0.2.2| + pca.val1 * |pca.v1.2.2| + pca.val2 * |pca.v2.2.2|) /
            Real.sqrt
              ((pca.val0 * |pca.v0.1| + pca.val1 * |pca.v1.1| + pca.val2 * |pca.v2.1|) *
                (pca.val0 * |pca.v0.1| + pca.val1 * |pca.v1.1| + pca.val2 * |pca.v2.1|) +
              (pca.val0 * |pca.v0.2.1| + pca.val1 * |pca.v1.2.1| + pca.val2 * |pca.v2.2.1|) *
                (pca.val0 * |pca.v0.2.1| + pca.val1 * |pca.v1.2.1| + pca.val2 * |pca.v2.2.1|) +
              (pca.val0 * |pca.v0.2.2| + pca.val1 * |pca.v1.2.2| + pca.val2 * |pca.v2.2.2|) *
                (pca.val0 * |pca.v0.2.2| + pca.val1 * |pca.v1.2.2| + pca.val2 * |pca.v2.2.2|))) ∧
      (Real.sqrt pca.val0 = 0 →
        compute_geometric_features_point (fun _ => 0) 0
            (fun _ => PCAOutput.mk 1 0 0 (1, 0, 0) (0, 1, 0) (0, 0, 1) 0) 1 0 0 2
            (0 * 11 + 3) = 0) :=
  ⟨by decide,
    verticality_formula (fun _ => 0) 0
      (fun _ => PCAOutput.mk 1 0 0 (1, 0, 0) (0, 1, 0) (0, 0, 1) 0) 1 0 0 2 (by decide)⟩
